import Mathlib

/-!
Verification development for the Baseball-Tracker repository
(three Python scripts: an interactive bounding-box labeling tool `main.py`,
a training driver `training.py`, and a model exporter `export.py`).

The labeling tool's per-image interaction loop is embedded as a step
function on an explicit state (mode, committed boxes, drawn overlays, and
a file system mapping label paths to file contents).  Label normalization
arithmetic is embedded over `ℚ` (Python's true division of pixel integers),
and the `"%.6f"` formatting as decimal rendering of the value rounded to
six fractional digits (round half to even, as Python's float formatting).

File contents are modelled as lists of lines, each line carrying its
terminating newline character, matching the `f.write(... + "\n")` calls.
-/

namespace BaseballTracker

/-! ## Data model: bounding boxes and normalization (main.py lines 71-75) -/

/-- A bounding box as collected by the mouse callback: four pixel
coordinates `(x1, y1, x2, y2)` in image space (Python ints). -/
structure Box where
  x1 : Int
  y1 : Int
  x2 : Int
  y2 : Int
deriving DecidableEq, Repr

/-- `((a + b) / 2) / w` — the center-coordinate normalization applied to a
coordinate pair, from `x_center = ((x1 + x2) / 2) / w` (main.py line 72)
and the analogous `y_center` (line 73). -/
def centerNorm (w a b : ℚ) : ℚ := ((a + b) / 2) / w

/-- Python's `abs` on a rational value. -/
def ratAbs (q : ℚ) : ℚ := if q < 0 then -q else q

/-- `abs (b - a) / w` — the size normalization, from
`width = abs(x2 - x1) / w` (main.py line 74) and the analogous `height`
(line 75). -/
def sizeNorm (w a b : ℚ) : ℚ := ratAbs (b - a) / w

/-- The normalized x-center of a box on an image of width `w`. -/
def xCenterOf (w : ℚ) (b : Box) : ℚ := centerNorm w (b.x1 : ℚ) (b.x2 : ℚ)

/-- The normalized y-center of a box on an image of height `h`. -/
def yCenterOf (h : ℚ) (b : Box) : ℚ := centerNorm h (b.y1 : ℚ) (b.y2 : ℚ)

/-- The normalized width of a box on an image of width `w`. -/
def widthOf (w : ℚ) (b : Box) : ℚ := sizeNorm w (b.x1 : ℚ) (b.x2 : ℚ)

/-- The normalized height of a box on an image of height `h`. -/
def heightOf (h : ℚ) (b : Box) : ℚ := sizeNorm h (b.y1 : ℚ) (b.y2 : ℚ)

/-! ## Decimal rendering: the `{v:.6f}` format (main.py line 76) -/

/-- The decimal digit character for `d` (meaningful for `d < 10`). -/
def digitChar (d : Nat) : Char :=
  match d with
  | 0 => '0' | 1 => '1' | 2 => '2' | 3 => '3' | 4 => '4'
  | 5 => '5' | 6 => '6' | 7 => '7' | 8 => '8' | _ => '9'

/-- Decimal digit list of a natural number, most significant first. -/
def natChars (n : Nat) : List Char :=
  if h : n < 10 then [digitChar n]
  else natChars (n / 10) ++ [digitChar (n % 10)]
termination_by n
decreasing_by exact Nat.div_lt_self (by omega) (by omega)

/-- Decimal string of a natural number. -/
def natStr (n : Nat) : String := String.mk (natChars n)

/-- Exactly six decimal digits, zero padded, for `m < 10 ^ 6`: the
fractional part of a `%.6f` rendering. -/
def frac6 (m : Nat) : String :=
  String.mk [digitChar (m / 100000 % 10), digitChar (m / 10000 % 10),
    digitChar (m / 1000 % 10), digitChar (m / 100 % 10),
    digitChar (m / 10 % 10), digitChar (m % 10)]

/-- Round a rational to the nearest integer, ties to even — the rounding
used by Python's fixed-point float formatting. -/
def roundHalfEven (q : ℚ) : Int :=
  if q - ⌊q⌋ < 1 / 2 then ⌊q⌋
  else if 1 / 2 < q - ⌊q⌋ then ⌊q⌋ + 1
  else if ⌊q⌋ % 2 = 0 then ⌊q⌋ else ⌊q⌋ + 1

/-- The value scaled to integer micro-units (six fractional digits). -/
def micro6 (q : ℚ) : Int := roundHalfEven (q * 1000000)

/-- Fixed-point rendering with six fractional digits: the embedding of
Python's `f"{v:.6f}"` for the rational value `v`. -/
def fmt6 (q : ℚ) : String :=
  (if micro6 q < 0 then "-" else "") ++
    natStr ((micro6 q).natAbs / 1000000) ++ "." ++
    frac6 ((micro6 q).natAbs % 1000000)

/-! ## Label records (main.py lines 7, 71-76) -/

/-- `class_id = 0  # Baseball class` (main.py line 7). -/
def class_id : Nat := 0

/-- One label line for a box, exactly as written by
`f.write(f"{class_id} {x_center:.6f} {y_center:.6f} {width:.6f} {height:.6f}\n")`
(main.py line 76).  The terminating newline is part of the line. -/
def renderLine (w h : ℚ) (b : Box) : String :=
  natStr class_id ++ " " ++ fmt6 (xCenterOf w b) ++ " " ++ fmt6 (yCenterOf h b) ++
    " " ++ fmt6 (widthOf w b) ++ " " ++ fmt6 (heightOf h b) ++ "\n"

/-- The full label-file content for a list of committed boxes: the loop
`for (x1, y1, x2, y2) in current_boxes` (main.py lines 71-76). -/
def renderLabel (w h : ℚ) (bs : List Box) : List String :=
  bs.map (renderLine w h)

/-! ## The file system: label files on disk -/

/-- A file system fragment: label path to file content (list of lines). -/
abbrev FileSys := List (String × List String)

/-- Look up the content of file `p`. -/
def lookupFile (p : String) : FileSys → Option (List String)
  | [] => none
  | (q, c) :: fs => if q = p then some c else lookupFile p fs

/-- `open(label_path, 'w')` followed by the writes: create the file, or
truncate and replace it when it already exists (main.py line 70). -/
def writeFile (p : String) (c : List String) : FileSys → FileSys
  | [] => [(p, c)]
  | (q, d) :: fs => if q = p then (p, c) :: fs else (q, d) :: writeFile p c fs

/-! ## The per-image interaction loop (main.py lines 44-89) -/

/-- The control position inside the per-image `while True:` loop:
`drawing` is the outer loop (keys read at line 57), `preview` the inner
loop after `s` (keys read at line 67), `done` after any `break` out of the
outer loop — the tool then advances to the next image. -/
inductive Mode where
  | drawing
  | preview
  | done
deriving DecidableEq, Repr

/-- Events delivered to the loop: a mouse-up commit of a box (the
`EVENT_LBUTTONUP` branch of `draw_box`, main.py lines 29-33), or a key
press returned by `waitKey`. -/
inductive Event where
  | commit (b : Box)
  | key (c : Char)
deriving DecidableEq, Repr

/-- The per-image session state: loop position, committed boxes
(`current_boxes`), rectangles drawn onto the working image (`img`), and
the file system. -/
structure LabelerState where
  mode : Mode
  boxes : List Box
  overlays : List Box
  fs : FileSys
deriving DecidableEq, Repr

/-- One step of the per-image loop for an image with dimensions `(w, h)`
and label path `p`.

* a `commit` appends the box to `current_boxes` and draws its rectangle
  onto `img` (main.py lines 31-32); the callback stays installed, so this
  applies in both the outer and the preview loop;
* in the outer loop, `s` opens the Preview (line 59), `n` breaks out of
  the image (line 85), `r` clears the boxes and re-reads the image from
  disk, discarding all overlays (lines 87-89), other keys are ignored;
* in the Preview loop, `y` writes the label file and breaks (lines 68-78),
  `n` breaks without writing (lines 79-82), other keys are ignored; either
  break falls through to the outer `break` (line 83), ending the image;
* after the outer loop has been left, the session for this image is over. -/
def step (w h : ℚ) (p : String) (s : LabelerState) (e : Event) : LabelerState :=
  match s.mode, e with
  | .done, _ => s
  | _, .commit b => { s with boxes := s.boxes ++ [b], overlays := s.overlays ++ [b] }
  | .drawing, .key c =>
    if c = 's' then { s with mode := .preview }
    else if c = 'n' then { s with mode := .done }
    else if c = 'r' then { s with boxes := [], overlays := [] }
    else s
  | .preview, .key c =>
    if c = 'y' then
      { s with mode := .done, fs := writeFile p (renderLabel w h s.boxes) s.fs }
    else if c = 'n' then { s with mode := .done }
    else s

/-- The state at the start of an image: `current_boxes = []` (line 48),
freshly read image (no overlays), outer loop about to poll keys. -/
def initState (fs : FileSys) : LabelerState :=
  { mode := .drawing, boxes := [], overlays := [], fs := fs }

/-- Run the whole per-image session on a list of events. -/
def runSession (w h : ℚ) (p : String) (fs : FileSys) (es : List Event) : LabelerState :=
  es.foldl (step w h p) (initState fs)

/-- Observation function: the boxes captured by the first `y` key pressed
while the Preview is open, `none` when no such press occurs.  The guard
`s.mode = .preview ∧ e = .key 'y'` is literally "the operator presses `y`
while the Preview is open". -/
def savedBoxes (w h : ℚ) (p : String) (s : LabelerState) : List Event → Option (List Box)
  | [] => none
  | e :: es =>
    if s.mode = Mode.preview ∧ e = Event.key 'y' then some s.boxes
    else savedBoxes w h p (step w h p s e) es

/-! ## training.py -/

/-- The argument record of the single `model.train(...)` call
(training.py lines 12-34). -/
structure TrainArgs where
  data : String
  epochs : Nat
  imgsz : Nat
  batch : Nat
  device : String
  project : String
  runName : String
  optimizer : String
  lr0 : ℚ
  patience : Nat
  mosaic : ℚ
  degrees : ℚ
  translate : ℚ
  scale : ℚ
  shear : ℚ
  flipud : ℚ
  fliplr : ℚ
  hsv_h : ℚ
  hsv_s : ℚ
  hsv_v : ℚ
  close_mosaic : Nat
deriving DecidableEq, Repr

/-- `device = "cuda" if torch.cuda.is_available() else "cpu"`
(training.py line 6), as a function of accelerator availability. -/
def selectDevice (cuda_available : Bool) : String :=
  if cuda_available then "cuda" else "cpu"

/-- `main()` of training.py: builds the training call from the selected
device and the hardcoded hyperparameters (lines 5-34). -/
def trainingMain (cuda_available : Bool) : TrainArgs :=
  { data := "baseball.yaml"
    epochs := 200
    imgsz := 960
    batch := 16
    device := selectDevice cuda_available
    project := "runs/baseball_yolo"
    runName := "from_scratch_v1"
    optimizer := "AdamW"
    lr0 := 1 / 1000
    patience := 30
    mosaic := 1
    degrees := 10
    translate := 1 / 10
    scale := 1 / 2
    shear := 1 / 5
    flipud := 0
    fliplr := 1 / 2
    hsv_h := 15 / 1000
    hsv_s := 7 / 10
    hsv_v := 4 / 10
    close_mosaic := 20 }

/-! ## export.py -/

/-- The argument record of one `model.export(...)` call
(export.py lines 7-12). -/
structure ExportArgs where
  format : String
  nms : Bool
  dynamic : Bool
  half : Bool
deriving DecidableEq, Repr

/-- What the export script does: which checkpoints it loads and which
export calls it performs. -/
structure ExportRun where
  checkpoints : List String
  exports : List ExportArgs
deriving DecidableEq, Repr

/-- export.py top level: `model = YOLO("best.pt")` (line 4) then a single
`model.export(format="coreml", nms=True, dynamic=False, half=False)`
(lines 7-12). -/
def exportMain : ExportRun :=
  { checkpoints := ["best.pt"]
    exports := [{ format := "coreml", nms := true, dynamic := false, half := false }] }

/-! ## Shape of a written label line (spec side) -/

/-- All characters of a string are decimal digits. -/
def allDigits (s : String) : Prop := ∀ c ∈ s.data, c.isDigit = true

/-- A numeric field formatted with six decimal places: an optional minus
sign, a nonempty run of digits, a decimal point, and exactly six digits;
in particular it contains no space. -/
def isFixed6 (s : String) : Prop :=
  ∃ sgn ip fp : String,
    s = sgn ++ ip ++ "." ++ fp ∧ (sgn = "" ∨ sgn = "-") ∧
      ip.data ≠ [] ∧ allDigits ip ∧ fp.length = 6 ∧ allDigits fp ∧
      ∀ c ∈ s.data, c ≠ ' '

/-- A well-formed label line: the class field `0`, then four numeric
fields, the five fields separated by single spaces, each numeric field
formatted with six decimal places and containing no space, the line
terminated by a newline. -/
def wellFormedLine (l : String) : Prop :=
  ∃ f1 f2 f3 f4 : String,
    l = "0 " ++ f1 ++ " " ++ f2 ++ " " ++ f3 ++ " " ++ f4 ++ "\n" ∧
      isFixed6 f1 ∧ isFixed6 f2 ∧ isFixed6 f3 ∧ isFixed6 f4

/-! ## Helper lemmas: strings and digit rendering -/

theorem data_append (a b : String) : (a ++ b).data = a.data ++ b.data := by
  cases a
  cases b
  rfl

theorem digitChar_isDigit (d : Nat) : (digitChar d).isDigit = true := by
  unfold digitChar
  split <;> rfl

theorem digitChar_ne_space (d : Nat) : digitChar d ≠ ' ' := by
  unfold digitChar
  split <;> decide

theorem natChars_ne_nil (n : Nat) : natChars n ≠ [] := by
  rw [natChars]
  split
  · simp
  · simp

theorem natChars_digits (n : Nat) : ∀ c ∈ natChars n, c.isDigit = true := by
  induction n using natChars.induct with
  | case1 n h =>
    rw [natChars, dif_pos h]
    intro c hc
    rw [List.mem_singleton] at hc
    subst hc
    exact digitChar_isDigit n
  | case2 n h ih =>
    rw [natChars, dif_neg h]
    intro c hc
    rcases List.mem_append.mp hc with h1 | h2
    · exact ih c h1
    · rw [List.mem_singleton] at h2
      subst h2
      exact digitChar_isDigit _

theorem allDigits_natStr (n : Nat) : allDigits (natStr n) :=
  natChars_digits n

theorem frac6_length (m : Nat) : (frac6 m).length = 6 := rfl

theorem allDigits_frac6 (m : Nat) : allDigits (frac6 m) := by
  intro c hc
  have hm : c ∈ [digitChar (m / 100000 % 10), digitChar (m / 10000 % 10),
      digitChar (m / 1000 % 10), digitChar (m / 100 % 10),
      digitChar (m / 10 % 10), digitChar (m % 10)] := hc
  simp only [List.mem_cons, List.not_mem_nil, or_false] at hm
  rcases hm with h | h | h | h | h | h
  all_goals rw [h]
  all_goals apply digitChar_isDigit

theorem isDigit_ne_space {c : Char} (h : c.isDigit = true) : c ≠ ' ' := by
  intro he
  subst he
  simp [Char.isDigit] at h

theorem isFixed6_fmt6 (q : ℚ) : isFixed6 (fmt6 q) := by
  refine ⟨if micro6 q < 0 then "-" else "", natStr ((micro6 q).natAbs / 1000000),
    frac6 ((micro6 q).natAbs % 1000000), rfl, ?_, ?_, ?_, ?_, ?_, ?_⟩
  · split
    · exact Or.inr rfl
    · exact Or.inl rfl
  · exact natChars_ne_nil _
  · exact allDigits_natStr _
  · exact frac6_length _
  · exact allDigits_frac6 _
  · intro c hc
    rw [fmt6, data_append, data_append, data_append] at hc
    rcases List.mem_append.mp hc with hc | hfp
    rcases List.mem_append.mp hc with hc | hdot
    rcases List.mem_append.mp hc with hsgn | hip
    · revert hsgn
      split <;> intro hsgn
      · rw [List.mem_singleton] at hsgn
        subst hsgn
        decide
      · simp at hsgn
    · exact isDigit_ne_space (allDigits_natStr _ c hip)
    · rw [List.mem_singleton] at hdot
      subst hdot
      decide
    · exact isDigit_ne_space (allDigits_frac6 _ c hfp)

theorem natStr_class_id : natStr class_id ++ " " = "0 " := by
  simp [natStr, class_id, natChars, digitChar]

theorem wellFormedLine_renderLine (w h : ℚ) (b : Box) :
    wellFormedLine (renderLine w h b) := by
  refine ⟨fmt6 (xCenterOf w b), fmt6 (yCenterOf h b), fmt6 (widthOf w b),
    fmt6 (heightOf h b), ?_, isFixed6_fmt6 _, isFixed6_fmt6 _, isFixed6_fmt6 _, isFixed6_fmt6 _⟩
  rw [renderLine, ← natStr_class_id]

/-! ## Helper lemmas: evaluating the fixed-point rendering -/

theorem roundHalfEven_intCast (n : ℤ) : roundHalfEven (n : ℚ) = n := by
  simp [roundHalfEven]

theorem fmt6_eval (q : ℚ) (n : ℕ) (h : q * 1000000 = (n : ℚ)) :
    fmt6 q = natStr (n / 1000000) ++ "." ++ frac6 (n % 1000000) := by
  have hm : micro6 q = (n : ℤ) := by
    rw [micro6, h]
    exact_mod_cast roundHalfEven_intCast (n : ℤ)
  have hn : ¬((n : ℤ) < 0) := Int.not_lt.mpr (Int.natCast_nonneg n)
  rw [fmt6, hm]
  simp [hn]

/-! ## Helper lemmas: the per-image step function -/

theorem step_done (w h : ℚ) (p : String) (s : LabelerState) (e : Event)
    (hs : s.mode = Mode.done) : step w h p s e = s := by
  obtain ⟨m, bs, os, fs⟩ := s
  cases hs
  cases e <;> rfl

theorem foldl_done (w h : ℚ) (p : String) (s : LabelerState)
    (hs : s.mode = Mode.done) (es : List Event) :
    es.foldl (step w h p) s = s := by
  induction es with
  | nil => rfl
  | cons e es ih =>
    rw [List.foldl_cons, step_done w h p s e hs, ih]

theorem step_fs_of_not_save (w h : ℚ) (p : String) (s : LabelerState) (e : Event)
    (hns : ¬(s.mode = Mode.preview ∧ e = Event.key 'y')) :
    (step w h p s e).fs = s.fs := by
  obtain ⟨m, bs, os, fs⟩ := s
  cases m <;> cases e
  case done.commit => rfl
  case done.key => rfl
  case drawing.commit => rfl
  case preview.commit => rfl
  case drawing.key c =>
    simp only [step]
    split
    · rfl
    · split
      · rfl
      · split
        · rfl
        · rfl
  case preview.key c =>
    by_cases hy : c = 'y'
    · exact absurd ⟨rfl, by rw [hy]⟩ hns
    · simp only [step, if_neg hy]
      split
      · rfl
      · rfl

theorem step_save (w h : ℚ) (p : String) (s : LabelerState)
    (hs : s.mode = Mode.preview) :
    step w h p s (Event.key 'y') =
      { s with mode := Mode.done, fs := writeFile p (renderLabel w h s.boxes) s.fs } := by
  obtain ⟨m, bs, os, fs⟩ := s
  cases hs
  rfl

/-! ## Helper lemmas: the label file across a whole session -/

theorem lookupFile_writeFile_self (p : String) (c : List String) (fs : FileSys) :
    lookupFile p (writeFile p c fs) = some c := by
  induction fs with
  | nil => simp [writeFile, lookupFile]
  | cons e fs ih =>
    rw [writeFile]
    split
    · simp [lookupFile]
    · rename_i hne
      rw [lookupFile, if_neg hne]
      exact ih

theorem lookup_run (w h : ℚ) (p : String) :
    ∀ (es : List Event) (s : LabelerState),
      lookupFile p ((es.foldl (step w h p) s).fs) =
        (savedBoxes w h p s es).elim (lookupFile p s.fs)
          (fun bs => some (renderLabel w h bs)) := by
  intro es
  induction es with
  | nil =>
    intro s
    rfl
  | cons e es ih =>
    intro s
    rw [List.foldl_cons, savedBoxes]
    split
    · rename_i hc
      obtain ⟨hm, he⟩ := hc
      rw [he, step_save w h p s hm, foldl_done]
      · exact lookupFile_writeFile_self p _ s.fs
      · rfl
    · rename_i hc
      rw [ih (step w h p s e), step_fs_of_not_save w h p s e hc]

/-! ## Helper lemmas: ranges of the normalized values -/

theorem ratAbs_eq_abs (q : ℚ) : ratAbs q = |q| := by
  rw [ratAbs]
  rcases lt_or_ge q 0 with hq | hq
  · rw [if_pos hq, abs_of_neg hq]
  · rw [if_neg (not_lt.mpr hq), abs_of_nonneg hq]

theorem centerNorm_range (w a b : ℚ) (hw : 0 < w) (ha0 : 0 ≤ a) (haw : a ≤ w)
    (hb0 : 0 ≤ b) (hbw : b ≤ w) :
    0 ≤ centerNorm w a b ∧ centerNorm w a b ≤ 1 := by
  constructor
  · exact div_nonneg (div_nonneg (by linarith) (by norm_num)) hw.le
  · rw [centerNorm, div_le_one hw]
    linarith

theorem sizeNorm_range (w a b : ℚ) (hw : 0 < w) (ha0 : 0 ≤ a) (haw : a ≤ w)
    (hb0 : 0 ≤ b) (hbw : b ≤ w) :
    0 ≤ sizeNorm w a b ∧ sizeNorm w a b ≤ 1 := by
  rw [sizeNorm, ratAbs_eq_abs]
  constructor
  · exact div_nonneg (abs_nonneg _) hw.le
  · rw [div_le_one hw]
    exact abs_le.mpr ⟨by linarith, by linarith⟩

/-! ## Claim theorems -/

/-- C1: for every committed box `(x1, y1, x2, y2)` and image dimensions
`(w, h)` with `w > 0` and `h > 0`, the label fields written on save are
`x_center = ((x1+x2)/2)/w`, `y_center = ((y1+y2)/2)/h`,
`width = |x2-x1|/w`, `height = |y2-y1|/h`, and each value lies in `[0, 1]`
when the box coordinates lie within the image bounds. -/
theorem C1_label_fields (w h : ℤ) (b : Box) (hw : 0 < w) (hh : 0 < h)
    (hx1 : 0 ≤ b.x1) (hx1w : b.x1 ≤ w) (hx2 : 0 ≤ b.x2) (hx2w : b.x2 ≤ w)
    (hy1 : 0 ≤ b.y1) (hy1h : b.y1 ≤ h) (hy2 : 0 ≤ b.y2) (hy2h : b.y2 ≤ h) :
    xCenterOf (w : ℚ) b = ((b.x1 : ℚ) + (b.x2 : ℚ)) / 2 / (w : ℚ) ∧
    yCenterOf (h : ℚ) b = ((b.y1 : ℚ) + (b.y2 : ℚ)) / 2 / (h : ℚ) ∧
    widthOf (w : ℚ) b = |(b.x2 : ℚ) - (b.x1 : ℚ)| / (w : ℚ) ∧
    heightOf (h : ℚ) b = |(b.y2 : ℚ) - (b.y1 : ℚ)| / (h : ℚ) ∧
    (0 ≤ xCenterOf (w : ℚ) b ∧ xCenterOf (w : ℚ) b ≤ 1) ∧
    (0 ≤ yCenterOf (h : ℚ) b ∧ yCenterOf (h : ℚ) b ≤ 1) ∧
    (0 ≤ widthOf (w : ℚ) b ∧ widthOf (w : ℚ) b ≤ 1) ∧
    (0 ≤ heightOf (h : ℚ) b ∧ heightOf (h : ℚ) b ≤ 1) := by
  have hwq : (0 : ℚ) < (w : ℚ) := by exact_mod_cast hw
  have hhq : (0 : ℚ) < (h : ℚ) := by exact_mod_cast hh
  have cx := centerNorm_range (w : ℚ) (b.x1 : ℚ) (b.x2 : ℚ) hwq
    (by exact_mod_cast hx1) (by exact_mod_cast hx1w) (by exact_mod_cast hx2)
    (by exact_mod_cast hx2w)
  have cy := centerNorm_range (h : ℚ) (b.y1 : ℚ) (b.y2 : ℚ) hhq
    (by exact_mod_cast hy1) (by exact_mod_cast hy1h) (by exact_mod_cast hy2)
    (by exact_mod_cast hy2h)
  have sx := sizeNorm_range (w : ℚ) (b.x1 : ℚ) (b.x2 : ℚ) hwq
    (by exact_mod_cast hx1) (by exact_mod_cast hx1w) (by exact_mod_cast hx2)
    (by exact_mod_cast hx2w)
  have sy := sizeNorm_range (h : ℚ) (b.y1 : ℚ) (b.y2 : ℚ) hhq
    (by exact_mod_cast hy1) (by exact_mod_cast hy1h) (by exact_mod_cast hy2)
    (by exact_mod_cast hy2h)
  exact ⟨rfl, rfl, by rw [widthOf, sizeNorm, ratAbs_eq_abs],
    by rw [heightOf, sizeNorm, ratAbs_eq_abs], cx, cy, sx, sy⟩

/-- Witness for C1 at `w = 100`, `h = 50`, box `(10, 10, 30, 30)`. -/
theorem C1_label_fields_witness :
    ((0 : ℤ) < 100 ∧ (0 : ℤ) < 50 ∧
      (0 : ℤ) ≤ 10 ∧ (10 : ℤ) ≤ 100 ∧ (0 : ℤ) ≤ 30 ∧ (30 : ℤ) ≤ 100 ∧
      (0 : ℤ) ≤ 10 ∧ (10 : ℤ) ≤ 50 ∧ (0 : ℤ) ≤ 30 ∧ (30 : ℤ) ≤ 50) ∧
    (xCenterOf ((100 : ℤ) : ℚ) ⟨10, 10, 30, 30⟩ =
        (((10 : ℤ) : ℚ) + ((30 : ℤ) : ℚ)) / 2 / ((100 : ℤ) : ℚ) ∧
      yCenterOf ((50 : ℤ) : ℚ) ⟨10, 10, 30, 30⟩ =
        (((10 : ℤ) : ℚ) + ((30 : ℤ) : ℚ)) / 2 / ((50 : ℤ) : ℚ) ∧
      widthOf ((100 : ℤ) : ℚ) ⟨10, 10, 30, 30⟩ =
        |((30 : ℤ) : ℚ) - ((10 : ℤ) : ℚ)| / ((100 : ℤ) : ℚ) ∧
      heightOf ((50 : ℤ) : ℚ) ⟨10, 10, 30, 30⟩ =
        |((30 : ℤ) : ℚ) - ((10 : ℤ) : ℚ)| / ((50 : ℤ) : ℚ) ∧
      (0 ≤ xCenterOf ((100 : ℤ) : ℚ) ⟨10, 10, 30, 30⟩ ∧
        xCenterOf ((100 : ℤ) : ℚ) ⟨10, 10, 30, 30⟩ ≤ 1) ∧
      (0 ≤ yCenterOf ((50 : ℤ) : ℚ) ⟨10, 10, 30, 30⟩ ∧
        yCenterOf ((50 : ℤ) : ℚ) ⟨10, 10, 30, 30⟩ ≤ 1) ∧
      (0 ≤ widthOf ((100 : ℤ) : ℚ) ⟨10, 10, 30, 30⟩ ∧
        widthOf ((100 : ℤ) : ℚ) ⟨10, 10, 30, 30⟩ ≤ 1) ∧
      (0 ≤ heightOf ((50 : ℤ) : ℚ) ⟨10, 10, 30, 30⟩ ∧
        heightOf ((50 : ℤ) : ℚ) ⟨10, 10, 30, 30⟩ ≤ 1)) :=
  ⟨⟨by decide, by decide, by decide, by decide, by decide, by decide,
    by decide, by decide, by decide, by decide⟩,
    C1_label_fields 100 50 ⟨10, 10, 30, 30⟩ (by decide) (by decide)
      (by decide) (by decide) (by decide) (by decide)
      (by decide) (by decide) (by decide) (by decide)⟩

/-- C5 counterexample: the box `(10, 10, 10, 40)` (degenerate in x) lies
within the bounds of a 100×100 image, yet its normalized width is `0`,
which is not strictly inside the open interval `(0, 1)`.  The claim that
every spatial field lies strictly within `(0, 1)` is therefore false. -/
theorem C5_counterexample :
    widthOf (100 : ℚ) ⟨10, 10, 10, 40⟩ = 0 ∧
      ¬(0 < widthOf (100 : ℚ) ⟨10, 10, 10, 40⟩ ∧
        widthOf (100 : ℚ) ⟨10, 10, 10, 40⟩ < 1) := by
  have h0 : widthOf (100 : ℚ) ⟨10, 10, 10, 40⟩ = 0 := by
    norm_num [widthOf, sizeNorm, ratAbs]
  refine ⟨h0, ?_⟩
  rw [h0]
  intro hc
  exact absurd hc.1 (by norm_num)

/-- C5 (amended): every spatial field of a written label record lies in
the closed interval `[0, 1]` — not the open interval `(0, 1)` — provided
the box coordinates lie within the image bounds; the boundary values are
attained (a degenerate box yields `0`, a full-image box yields `1`). -/
theorem C5_fields_in_unit_interval (w h : ℤ) (b : Box) (hw : 0 < w) (hh : 0 < h)
    (hx1 : 0 ≤ b.x1) (hx1w : b.x1 ≤ w) (hx2 : 0 ≤ b.x2) (hx2w : b.x2 ≤ w)
    (hy1 : 0 ≤ b.y1) (hy1h : b.y1 ≤ h) (hy2 : 0 ≤ b.y2) (hy2h : b.y2 ≤ h) :
    xCenterOf (w : ℚ) b ∈ Set.Icc (0 : ℚ) 1 ∧
    yCenterOf (h : ℚ) b ∈ Set.Icc (0 : ℚ) 1 ∧
    widthOf (w : ℚ) b ∈ Set.Icc (0 : ℚ) 1 ∧
    heightOf (h : ℚ) b ∈ Set.Icc (0 : ℚ) 1 := by
  have hwq : (0 : ℚ) < (w : ℚ) := by exact_mod_cast hw
  have hhq : (0 : ℚ) < (h : ℚ) := by exact_mod_cast hh
  exact ⟨centerNorm_range (w : ℚ) (b.x1 : ℚ) (b.x2 : ℚ) hwq
      (by exact_mod_cast hx1) (by exact_mod_cast hx1w) (by exact_mod_cast hx2)
      (by exact_mod_cast hx2w),
    centerNorm_range (h : ℚ) (b.y1 : ℚ) (b.y2 : ℚ) hhq
      (by exact_mod_cast hy1) (by exact_mod_cast hy1h) (by exact_mod_cast hy2)
      (by exact_mod_cast hy2h),
    sizeNorm_range (w : ℚ) (b.x1 : ℚ) (b.x2 : ℚ) hwq
      (by exact_mod_cast hx1) (by exact_mod_cast hx1w) (by exact_mod_cast hx2)
      (by exact_mod_cast hx2w),
    sizeNorm_range (h : ℚ) (b.y1 : ℚ) (b.y2 : ℚ) hhq
      (by exact_mod_cast hy1) (by exact_mod_cast hy1h) (by exact_mod_cast hy2)
      (by exact_mod_cast hy2h)⟩

/-- Witness for the amended C5 at `w = h = 100`, box `(0, 0, 100, 100)`
(a full-image box, attaining the boundary value 1). -/
theorem C5_fields_in_unit_interval_witness :
    ((0 : ℤ) < 100 ∧ (0 : ℤ) ≤ 0 ∧ (0 : ℤ) ≤ 100 ∧ (100 : ℤ) ≤ 100) ∧
    (xCenterOf ((100 : ℤ) : ℚ) ⟨0, 0, 100, 100⟩ ∈ Set.Icc (0 : ℚ) 1 ∧
      yCenterOf ((100 : ℤ) : ℚ) ⟨0, 0, 100, 100⟩ ∈ Set.Icc (0 : ℚ) 1 ∧
      widthOf ((100 : ℤ) : ℚ) ⟨0, 0, 100, 100⟩ ∈ Set.Icc (0 : ℚ) 1 ∧
      heightOf ((100 : ℤ) : ℚ) ⟨0, 0, 100, 100⟩ ∈ Set.Icc (0 : ℚ) 1) :=
  ⟨⟨by decide, by decide, by decide, by decide⟩,
    C5_fields_in_unit_interval 100 100 ⟨0, 0, 100, 100⟩ (by decide) (by decide)
      (by decide) (by decide) (by decide) (by decide)
      (by decide) (by decide) (by decide) (by decide)⟩

/-- C7: reconstructing box corners from normalized values
(`x1 = (xc - bw/2)·w`, `x2 = (xc + bw/2)·w`, and analogously in y) and
re-applying the program's normalization formulas reproduces the original
normalized values within tolerance `10⁻⁶` (in fact exactly, since the
round trip is algebraically the identity over the rationals). -/
theorem C7_round_trip (w h xc yc bw bh : ℚ) (hw : 0 < w) (hh : 0 < h)
    (hbw : 0 ≤ bw) (hbh : 0 ≤ bh) :
    |centerNorm w ((xc - bw / 2) * w) ((xc + bw / 2) * w) - xc| ≤ 1 / 1000000 ∧
    |centerNorm h ((yc - bh / 2) * h) ((yc + bh / 2) * h) - yc| ≤ 1 / 1000000 ∧
    |sizeNorm w ((xc - bw / 2) * w) ((xc + bw / 2) * w) - bw| ≤ 1 / 1000000 ∧
    |sizeNorm h ((yc - bh / 2) * h) ((yc + bh / 2) * h) - bh| ≤ 1 / 1000000 := by
  have hc : ∀ u c s : ℚ, 0 < u → centerNorm u ((c - s / 2) * u) ((c + s / 2) * u) = c := by
    intro u c s hu
    rw [centerNorm]
    field_simp
    ring
  have hs : ∀ u c s : ℚ, 0 < u → 0 ≤ s →
      sizeNorm u ((c - s / 2) * u) ((c + s / 2) * u) = s := by
    intro u c s hu hs0
    rw [sizeNorm, ratAbs_eq_abs]
    have : (c + s / 2) * u - (c - s / 2) * u = s * u := by ring
    rw [this, abs_of_nonneg (mul_nonneg hs0 hu.le), mul_div_assoc,
      div_self hu.ne.symm, mul_one]
  refine ⟨?_, ?_, ?_, ?_⟩
  · rw [hc w xc bw hw, sub_self, abs_zero]
    norm_num
  · rw [hc h yc bh hh, sub_self, abs_zero]
    norm_num
  · rw [hs w xc bw hw hbw, sub_self, abs_zero]
    norm_num
  · rw [hs h yc bh hh hbh, sub_self, abs_zero]
    norm_num

/-- Witness for C7 at `w = 100`, `h = 50`, normalized values
`(1/5, 2/5, 1/5, 2/5)` (the label of box `(10, 10, 30, 30)` on 100×50). -/
theorem C7_round_trip_witness :
    ((0 : ℚ) < 100 ∧ (0 : ℚ) < 50 ∧ (0 : ℚ) ≤ 1 / 5 ∧ (0 : ℚ) ≤ 2 / 5) ∧
    (|centerNorm 100 ((1 / 5 - 1 / 5 / 2) * 100) ((1 / 5 + 1 / 5 / 2) * 100) - 1 / 5| ≤
        1 / 1000000 ∧
      |centerNorm 50 ((2 / 5 - 2 / 5 / 2) * 50) ((2 / 5 + 2 / 5 / 2) * 50) - 2 / 5| ≤
        1 / 1000000 ∧
      |sizeNorm 100 ((1 / 5 - 1 / 5 / 2) * 100) ((1 / 5 + 1 / 5 / 2) * 100) - 1 / 5| ≤
        1 / 1000000 ∧
      |sizeNorm 50 ((2 / 5 - 2 / 5 / 2) * 50) ((2 / 5 + 2 / 5 / 2) * 50) - 2 / 5| ≤
        1 / 1000000) :=
  ⟨⟨by norm_num, by norm_num, by norm_num, by norm_num⟩,
    C7_round_trip 100 50 (1 / 5) (2 / 5) (1 / 5) (2 / 5)
      (by norm_num) (by norm_num) (by norm_num) (by norm_num)⟩

/-- C2: over any event sequence for one image, the label file for that
image exists after the session exactly when the operator pressed `y`
while the Preview was open (`savedBoxes` is `some` precisely then), its
content is then one rendered line per box committed at that moment, and
every rendered line has class field `0`, five space-separated fields,
each spatial field formatted to six decimal places, and a terminating
newline. -/
theorem C2_write_contract (w h : ℚ) (p : String) (fs₀ : FileSys) (es : List Event)
    (hp : lookupFile p fs₀ = none) :
    lookupFile p ((runSession w h p fs₀ es).fs)
      = (savedBoxes w h p (initState fs₀) es).map (renderLabel w h) ∧
    ∀ bs : List Box,
      (renderLabel w h bs).length = bs.length ∧
      ∀ l ∈ renderLabel w h bs, wellFormedLine l := by
  constructor
  · rw [runSession, lookup_run]
    cases hsb : savedBoxes w h p (initState fs₀) es with
    | none => simpa [Option.elim, initState] using hp
    | some bs => simp [Option.elim]
  · intro bs
    refine ⟨by simp [renderLabel], ?_⟩
    intro l hl
    rw [renderLabel] at hl
    obtain ⟨b, _, rfl⟩ := List.mem_map.mp hl
    exact wellFormedLine_renderLine w h b

/-- Witness for C2 at a concrete session: empty file system, events
`[s, y]`. -/
theorem C2_write_contract_witness :
    lookupFile "a.txt" ([] : FileSys) = none ∧
    (lookupFile "a.txt" ((runSession 100 100 "a.txt" [] [Event.key 's', Event.key 'y']).fs)
        = (savedBoxes 100 100 "a.txt" (initState []) [Event.key 's', Event.key 'y']).map
            (renderLabel 100 100) ∧
      ∀ bs : List Box,
        (renderLabel 100 100 bs).length = bs.length ∧
        ∀ l ∈ renderLabel 100 100 bs, wellFormedLine l) :=
  ⟨rfl, C2_write_contract 100 100 "a.txt" [] [Event.key 's', Event.key 'y'] rfl⟩

/-- C3 counterexample: commit a box, open the Preview with `s`, cancel
with `n`.  No label file is written and the box list is intact, but the
session for the image is over (`mode = done`, the tool advances to the
next image): the loop does not return to Drawing on the same image, so
the claim as stated is false. -/
theorem C3_counterexample :
    (runSession 100 100 "a.txt" []
        [Event.commit ⟨10, 10, 20, 20⟩, Event.key 's', Event.key 'n']).mode = Mode.done ∧
    Mode.done ≠ Mode.drawing ∧
    (runSession 100 100 "a.txt" []
        [Event.commit ⟨10, 10, 20, 20⟩, Event.key 's', Event.key 'n']).boxes
      = [⟨10, 10, 20, 20⟩] ∧
    lookupFile "a.txt" ((runSession 100 100 "a.txt" []
        [Event.commit ⟨10, 10, 20, 20⟩, Event.key 's', Event.key 'n']).fs) = none := by
  refine ⟨?_, by decide, ?_, ?_⟩ <;>
    simp [runSession, initState, step, lookupFile]

/-- C3 (amended): pressing `n` while the Preview is open writes no label
file and leaves the in-memory box list (and drawn overlays) unchanged,
but it ends the per-image session — the tool advances to the next image
instead of returning to Drawing on the same one. -/
theorem C3_cancel_no_write (w h : ℚ) (p : String) (s : LabelerState)
    (hs : s.mode = Mode.preview) :
    (step w h p s (Event.key 'n')).fs = s.fs ∧
    (step w h p s (Event.key 'n')).boxes = s.boxes ∧
    (step w h p s (Event.key 'n')).overlays = s.overlays ∧
    (step w h p s (Event.key 'n')).mode = Mode.done := by
  obtain ⟨m, bs, os, fs⟩ := s
  cases hs
  exact ⟨rfl, rfl, rfl, rfl⟩

/-- Witness for the amended C3 at a concrete Preview state. -/
theorem C3_cancel_no_write_witness :
    (LabelerState.mode ⟨Mode.preview, [⟨1, 2, 3, 4⟩], [⟨1, 2, 3, 4⟩], []⟩ = Mode.preview) ∧
    ((step 100 100 "a.txt" ⟨Mode.preview, [⟨1, 2, 3, 4⟩], [⟨1, 2, 3, 4⟩], []⟩
        (Event.key 'n')).fs = LabelerState.fs ⟨Mode.preview, [⟨1, 2, 3, 4⟩], [⟨1, 2, 3, 4⟩], []⟩ ∧
      (step 100 100 "a.txt" ⟨Mode.preview, [⟨1, 2, 3, 4⟩], [⟨1, 2, 3, 4⟩], []⟩
        (Event.key 'n')).boxes = LabelerState.boxes ⟨Mode.preview, [⟨1, 2, 3, 4⟩], [⟨1, 2, 3, 4⟩], []⟩ ∧
      (step 100 100 "a.txt" ⟨Mode.preview, [⟨1, 2, 3, 4⟩], [⟨1, 2, 3, 4⟩], []⟩
        (Event.key 'n')).overlays = LabelerState.overlays ⟨Mode.preview, [⟨1, 2, 3, 4⟩], [⟨1, 2, 3, 4⟩], []⟩ ∧
      (step 100 100 "a.txt" ⟨Mode.preview, [⟨1, 2, 3, 4⟩], [⟨1, 2, 3, 4⟩], []⟩
        (Event.key 'n')).mode = Mode.done) :=
  ⟨rfl, C3_cancel_no_write 100 100 "a.txt" ⟨Mode.preview, [⟨1, 2, 3, 4⟩], [⟨1, 2, 3, 4⟩], []⟩ rfl⟩

/-- C4: pressing `r` in Drawing empties the in-memory box list and
discards every drawn overlay (the image pixels are re-read from disk),
stays in Drawing on the same image, and leaves the file system entirely
unchanged — the label file of every image, the current one included, is
untouched. -/
theorem C4_reset (w h : ℚ) (p : String) (s : LabelerState)
    (hs : s.mode = Mode.drawing) :
    (step w h p s (Event.key 'r')).boxes = [] ∧
    (step w h p s (Event.key 'r')).overlays = [] ∧
    (step w h p s (Event.key 'r')).mode = Mode.drawing ∧
    (step w h p s (Event.key 'r')).fs = s.fs ∧
    ∀ q : String, lookupFile q (step w h p s (Event.key 'r')).fs = lookupFile q s.fs := by
  obtain ⟨m, bs, os, fs⟩ := s
  cases hs
  exact ⟨rfl, rfl, rfl, rfl, fun q => rfl⟩

/-- Witness for C4 at a Drawing state holding two boxes and a file system
with a label file already saved for another image. -/
theorem C4_reset_witness :
    (LabelerState.mode ⟨Mode.drawing, [⟨1, 1, 2, 2⟩, ⟨3, 3, 4, 4⟩], [⟨1, 1, 2, 2⟩, ⟨3, 3, 4, 4⟩],
        [("other.txt", ["0 0.1 0.1 0.1 0.1"])]⟩ = Mode.drawing) ∧
    ((step 100 100 "a.txt" ⟨Mode.drawing, [⟨1, 1, 2, 2⟩, ⟨3, 3, 4, 4⟩], [⟨1, 1, 2, 2⟩, ⟨3, 3, 4, 4⟩],
        [("other.txt", ["0 0.1 0.1 0.1 0.1"])]⟩ (Event.key 'r')).boxes = [] ∧
      (step 100 100 "a.txt" ⟨Mode.drawing, [⟨1, 1, 2, 2⟩, ⟨3, 3, 4, 4⟩], [⟨1, 1, 2, 2⟩, ⟨3, 3, 4, 4⟩],
        [("other.txt", ["0 0.1 0.1 0.1 0.1"])]⟩ (Event.key 'r')).overlays = [] ∧
      (step 100 100 "a.txt" ⟨Mode.drawing, [⟨1, 1, 2, 2⟩, ⟨3, 3, 4, 4⟩], [⟨1, 1, 2, 2⟩, ⟨3, 3, 4, 4⟩],
        [("other.txt", ["0 0.1 0.1 0.1 0.1"])]⟩ (Event.key 'r')).mode = Mode.drawing ∧
      (step 100 100 "a.txt" ⟨Mode.drawing, [⟨1, 1, 2, 2⟩, ⟨3, 3, 4, 4⟩], [⟨1, 1, 2, 2⟩, ⟨3, 3, 4, 4⟩],
        [("other.txt", ["0 0.1 0.1 0.1 0.1"])]⟩ (Event.key 'r')).fs
        = LabelerState.fs ⟨Mode.drawing, [⟨1, 1, 2, 2⟩, ⟨3, 3, 4, 4⟩], [⟨1, 1, 2, 2⟩, ⟨3, 3, 4, 4⟩],
            [("other.txt", ["0 0.1 0.1 0.1 0.1"])]⟩ ∧
      ∀ q : String, lookupFile q (step 100 100 "a.txt" ⟨Mode.drawing, [⟨1, 1, 2, 2⟩, ⟨3, 3, 4, 4⟩],
          [⟨1, 1, 2, 2⟩, ⟨3, 3, 4, 4⟩], [("other.txt", ["0 0.1 0.1 0.1 0.1"])]⟩
          (Event.key 'r')).fs
        = lookupFile q (LabelerState.fs ⟨Mode.drawing, [⟨1, 1, 2, 2⟩, ⟨3, 3, 4, 4⟩],
            [⟨1, 1, 2, 2⟩, ⟨3, 3, 4, 4⟩], [("other.txt", ["0 0.1 0.1 0.1 0.1"])]⟩)) :=
  ⟨rfl, C4_reset 100 100 "a.txt" ⟨Mode.drawing, [⟨1, 1, 2, 2⟩, ⟨3, 3, 4, 4⟩],
    [⟨1, 1, 2, 2⟩, ⟨3, 3, 4, 4⟩], [("other.txt", ["0 0.1 0.1 0.1 0.1"])]⟩ rfl⟩

/-- C6: two boxes committed, then Reset, then one new box `(0,0,50,50)`
committed on a 100×100 image and the save confirmed with `s` then `y`:
the written label file holds exactly one line, and (with its terminating
newline, part of every written line) that line is
`0 0.250000 0.250000 0.500000 0.500000`. -/
theorem C6_reset_then_single_box :
    lookupFile "img.txt" ((runSession 100 100 "img.txt" []
        [Event.commit ⟨5, 5, 20, 20⟩, Event.commit ⟨30, 30, 60, 60⟩, Event.key 'r',
         Event.commit ⟨0, 0, 50, 50⟩, Event.key 's', Event.key 'y']).fs)
      = some ["0 0.250000 0.250000 0.500000 0.500000\n"] := by
  have hline : renderLine 100 100 ⟨0, 0, 50, 50⟩
      = "0 0.250000 0.250000 0.500000 0.500000\n" := by
    rw [renderLine,
      fmt6_eval (xCenterOf 100 ⟨0, 0, 50, 50⟩) 250000 (by norm_num [xCenterOf, centerNorm]),
      fmt6_eval (yCenterOf 100 ⟨0, 0, 50, 50⟩) 250000 (by norm_num [yCenterOf, centerNorm]),
      fmt6_eval (widthOf 100 ⟨0, 0, 50, 50⟩) 500000 (by norm_num [widthOf, sizeNorm, ratAbs]),
      fmt6_eval (heightOf 100 ⟨0, 0, 50, 50⟩) 500000 (by norm_num [heightOf, sizeNorm, ratAbs])]
    simp [natStr, natChars, digitChar, frac6, class_id]
  simp [runSession, initState, step, renderLabel, writeFile, lookupFile, hline]

/-- C10: confirming with `y` while zero boxes are committed still writes
the label file — creating it when absent and truncating an existing one —
and the written file is empty (zero label lines); the write is not
skipped on an empty box list. -/
theorem C10_empty_confirm :
    lookupFile "a.txt" ((runSession 100 100 "a.txt" []
        [Event.key 's', Event.key 'y']).fs) = some [] ∧
    lookupFile "a.txt" ((runSession 100 100 "a.txt" [("a.txt", ["0 0.1 0.2 0.1 0.2"])]
        [Event.key 's', Event.key 'y']).fs) = some [] := by
  constructor <;> simp [runSession, initState, step, renderLabel, writeFile, lookupFile]

/-- C8: the Trainer's compute device is a pure function of accelerator
availability — `"cuda"` exactly when one is available, `"cpu"` otherwise —
and exactly that selection is passed as the `device` argument of the
training call. -/
theorem C8_device_selection (c : Bool) :
    (trainingMain c).device = selectDevice c ∧
    selectDevice c = (if c then "cuda" else "cpu") ∧
    (trainingMain true).device = "cuda" ∧
    (trainingMain false).device = "cpu" :=
  ⟨rfl, rfl, rfl, rfl⟩

/-- C9: the Exporter loads exactly one checkpoint and performs exactly
one export call, whose options are the fixed constants `nms = true`,
`dynamic = false`, `half = false`. -/
theorem C9_export_config :
    exportMain.checkpoints.length = 1 ∧
    exportMain.exports.length = 1 ∧
    ∀ e ∈ exportMain.exports, e.nms = true ∧ e.dynamic = false ∧ e.half = false := by
  refine ⟨rfl, rfl, ?_⟩
  intro e he
  have : e = ⟨"coreml", true, false, false⟩ := by
    simpa [exportMain] using he
  rw [this]
  exact ⟨rfl, rfl, rfl⟩

end BaseballTracker
